import Mathlib

/-!
Shallow embedding of the 109Challenge pharmaceutical supply-chain
Monte Carlo simulator (src/distribution_mc.py, src/distribution_batch.py,
src/distribution_regression.py).

Randomness is modelled by explicit draw streams: every call the Python code
makes to `np.random.*` becomes a field of an input structure.  Real-valued
draws (uniform [0,1) threshold draws, normal transit-time draws) are `ℚ`;
count-valued draws (Poisson, binomial) are `ℕ`.  Each simulation function is
then a pure function of its draw inputs, exactly mirroring the control flow
of the source.
-/

namespace Journey

/-- One per-run draw of stage probabilities for the imported path
(distribution_mc.py lines 22-39, distribution_regression.py lines 12-22).
The sampling distributions (uniform/beta families) live in numpy; the values
they produce are the fields here. -/
structure StageProbs where
  p_counterfeit : ℚ
  p_seized_export_counterfeit : ℚ
  p_seized_export_legit : ℚ
  p_seized_import_counterfeit : ℚ
  p_seized_import_legit : ℚ
  p_warehouse_theft : ℚ
  p_last_mile_theft : ℚ
  deriving DecidableEq

/-- Per-run stage probabilities for the local path
(distribution_mc.py lines 127-129, distribution_regression.py lines 139-141). -/
structure LocalProbs where
  p_counterfeit_local : ℚ
  p_warehouse_theft_local : ℚ
  p_last_mile_theft_local : ℚ
  deriving DecidableEq

/-- The random draws one shipment's journey consumes, indexed by stage.
`stop_time i` / `stop_theft i` are the normal time draw and the uniform theft
draw at stop `i` (the Python loop consumes them in order and stops early on a
theft; indexing by stop keeps later draws fixed when the break point moves). -/
structure ShipDraws where
  u_class : ℚ
  u_export : ℚ
  base_time : ℚ
  u_import : ℚ
  poisson_stops : ℕ
  stop_time : ℕ → ℚ
  stop_theft : ℕ → ℚ
  u_last_mile : ℚ

/-- Terminal status of one shipment (spec §3 ShipmentOutcome). -/
inductive Outcome where
  | seizedExport
  | seizedImport
  | stolenWarehouse
  | stolenLastMile
  | lateArrival
  | onTime
  deriving DecidableEq

/-- Per-shipment result: class flag, terminal status, accumulated transit time. -/
structure ShipResult where
  is_counterfeit : Bool
  outcome : Outcome
  transit_time : ℚ
  deriving DecidableEq

/-- `num_stops = max(1, np.random.poisson(lambda_stops))`
(distribution_mc.py lines 85-88 and 150-151, distribution_regression.py
lines 75 and 165). -/
def num_stops (poisson_draw : ℕ) : ℕ := max 1 poisson_draw

/-- Constant `lambda_stops = 3` for the imported path
(distribution_mc.py line 84, distribution_regression.py line 74). -/
def lambda_stops_imported : ℕ := 3

/-- Constant `lambda_stops = 1` for the local path
(distribution_mc.py line 149, distribution_regression.py line 164). -/
def lambda_stops_local : ℕ := 1

/-- The stop loop (distribution_mc.py lines 90-98): at stop `i` add the time
draw to the transit time, then check warehouse theft; on a hit stop with
`stolen = true`, abandoning the remaining stops.  Arguments: theft
probability, the two draw streams, current stop index, remaining stop count,
accumulated transit time.  Returns final transit time and the stolen flag. -/
def stopLoop (p : ℚ) (time theft : ℕ → ℚ) : ℕ → ℕ → ℚ → ℚ × Bool
  | _, 0, t => (t, false)
  | i, k + 1, t =>
    let t2 := t + time i
    if theft i < p then (t2, true)
    else stopLoop p time theft (i + 1) k t2

/-- Classification draw for the imported path:
`is_counterfeit = (np.random.random() < p_counterfeit)`. -/
def isCfImported (pr : StageProbs) (d : ShipDraws) : Bool :=
  decide (d.u_class < pr.p_counterfeit)

/-- Class-appropriate export seizure probability (distribution_mc.py
lines 64-70: the counterfeit and legit branches check different
probabilities against one fresh uniform draw). -/
def exportProb (pr : StageProbs) (cf : Bool) : ℚ :=
  if cf then pr.p_seized_export_counterfeit else pr.p_seized_export_legit

/-- Class-appropriate import seizure probability (distribution_mc.py
lines 76-81). -/
def importProb (pr : StageProbs) (cf : Bool) : ℚ :=
  if cf then pr.p_seized_import_counterfeit else pr.p_seized_import_legit

/-- The stop loop of one imported shipment, started from the base transit
time with the clamped stop count (distribution_mc.py lines 83-98). -/
def stopResult (pr : StageProbs) (d : ShipDraws) : ℚ × Bool :=
  stopLoop pr.p_warehouse_theft d.stop_time d.stop_theft 0
    (num_stops d.poisson_stops) d.base_time

/-- One imported shipment's journey (distribution_mc.py lines 54-113; the
identical pipeline appears in distribution_regression.py lines 42-108, which
additionally folds every non-on-time outcome into `final_missing` — that
bookkeeping difference lives in the counting functions below). -/
def simulateShipmentImported (pr : StageProbs) (d : ShipDraws) : ShipResult :=
  if d.u_export < exportProb pr (isCfImported pr d) then
    ⟨isCfImported pr d, .seizedExport, 0⟩
  else if d.u_import < importProb pr (isCfImported pr d) then
    ⟨isCfImported pr d, .seizedImport, d.base_time⟩
  else if (stopResult pr d).2 then
    ⟨isCfImported pr d, .stolenWarehouse, (stopResult pr d).1⟩
  else if d.u_last_mile < pr.p_last_mile_theft then
    ⟨isCfImported pr d, .stolenLastMile, (stopResult pr d).1⟩
  else if (stopResult pr d).1 < 7 then
    ⟨isCfImported pr d, .onTime, (stopResult pr d).1⟩
  else
    ⟨isCfImported pr d, .lateArrival, (stopResult pr d).1⟩

/-- Replace only the warehouse-theft probability of a probability draw,
holding every other field fixed. -/
def setWarehouseTheft (pr : StageProbs) (q : ℚ) : StageProbs :=
  { pr with p_warehouse_theft := q }

/-- Classification draw for the local path. -/
def isCfLocal (pr : LocalProbs) (d : ShipDraws) : Bool :=
  decide (d.u_class < pr.p_counterfeit_local)

/-- The stop loop of one local shipment, started from transit time 0
(distribution_mc.py lines 146-162). -/
def stopResultLocal (pr : LocalProbs) (d : ShipDraws) : ℚ × Bool :=
  stopLoop pr.p_warehouse_theft_local d.stop_time d.stop_theft 0
    (num_stops d.poisson_stops) 0

/-- One local shipment's journey (distribution_mc.py lines 137-177;
identical pipeline in distribution_regression.py lines 154-197):
no export/import seizure and no base leg. -/
def simulateShipmentLocal (pr : LocalProbs) (d : ShipDraws) : ShipResult :=
  if (stopResultLocal pr d).2 then
    ⟨isCfLocal pr d, .stolenWarehouse, (stopResultLocal pr d).1⟩
  else if d.u_last_mile < pr.p_last_mile_theft_local then
    ⟨isCfLocal pr d, .stolenLastMile, (stopResultLocal pr d).1⟩
  else if (stopResultLocal pr d).1 < 7 then
    ⟨isCfLocal pr d, .onTime, (stopResultLocal pr d).1⟩
  else
    ⟨isCfLocal pr d, .lateArrival, (stopResultLocal pr d).1⟩

/-- `x / y if y > 0 else 0` — the divide-by-zero guard used by the callers
(distribution_mc.py lines 227-236 and 251-260, distribution_batch.py
lines 94-95). -/
def fracOrZero (num den : ℕ) : ℚ :=
  if den > 0 then (num : ℚ) / den else 0

/-- `np.mean` of a Python list of floats: sum divided by length. -/
def listMean (xs : List ℚ) : ℚ := xs.sum / xs.length

/-- A shipment was terminated by a seizure or theft stage before the arrival
check (every terminal status except arriving on time or late). -/
def terminatedBeforeArrival : Outcome → Bool
  | .seizedExport => true
  | .seizedImport => true
  | .stolenWarehouse => true
  | .stolenLastMile => true
  | .lateArrival => false
  | .onTime => false

end Journey

namespace MC

open Journey

/-- Run-level counters of distribution_mc.py `simulate_imported_drugs` /
`simulate_local_drugs` (lines 48-51 and 132-135). -/
structure McResult where
  final_legit_on_time : ℕ
  final_counterfeit_on_time : ℕ
  final_legit_total : ℕ
  final_counterfeit_total : ℕ
  deriving DecidableEq

/-- Fold one shipment's result into the run counters, mirroring the
increments of distribution_mc.py: class totals at lines 58-61, on-time
counters at lines 109-113; every other terminal status only hits `continue`. -/
def mcUpdate (r : McResult) (s : ShipResult) : McResult :=
  let r1 : McResult :=
    if s.is_counterfeit then
      { r with final_counterfeit_total := r.final_counterfeit_total + 1 }
    else
      { r with final_legit_total := r.final_legit_total + 1 }
  match s.outcome with
  | .onTime =>
    if s.is_counterfeit then
      { r1 with final_counterfeit_on_time := r1.final_counterfeit_on_time + 1 }
    else
      { r1 with final_legit_on_time := r1.final_legit_on_time + 1 }
  | _ => r1

/-- distribution_mc.py `simulate_imported_drugs` (lines 3-123): simulate N
shipments and accumulate counters.  `draws i` are the random draws consumed
by shipment `i`. -/
def simulate_imported_drugs (pr : StageProbs) (draws : ℕ → ShipDraws) (N : ℕ) :
    McResult :=
  (List.range N).foldl
    (fun r i => mcUpdate r (simulateShipmentImported pr (draws i))) ⟨0, 0, 0, 0⟩

/-- distribution_mc.py `simulate_local_drugs` (lines 126-190). -/
def simulate_local_drugs (pr : LocalProbs) (draws : ℕ → ShipDraws) (N : ℕ) :
    McResult :=
  (List.range N).foldl
    (fun r i => mcUpdate r (simulateShipmentLocal pr (draws i))) ⟨0, 0, 0, 0⟩

/-- The random inputs one iteration of `main_simulation` consumes: one fresh
probability draw per path plus the per-shipment draw streams. -/
structure RunDraws where
  impProbs : StageProbs
  locProbs : LocalProbs
  impDraws : ℕ → ShipDraws
  locDraws : ℕ → ShipDraws

/-- The per-run derived fractions `main_simulation` appends to its
accumulator lists each iteration (distribution_mc.py lines 217-263); field
names are the local variable names of the source. -/
structure RunRow where
  frac_legit_imported : ℚ
  frac_counterfeit_imported : ℚ
  frac_legit_arrived : ℚ
  frac_counterfeit_arrived : ℚ
  frac_legit_local : ℚ
  frac_counterfeit_local : ℚ
  frac_legit_local_arrived : ℚ
  frac_counterfeit_local_arrived : ℚ
  deriving DecidableEq

/-- One loop iteration of distribution_mc.py `main_simulation`
(lines 213-263): run both paths once and compute the derived fractions,
with the zero-total guard on the per-class on-time fractions. -/
def runRow (N : ℕ) (rd : RunDraws) : RunRow :=
  let imported_res := simulate_imported_drugs rd.impProbs rd.impDraws N
  let local_res := simulate_local_drugs rd.locProbs rd.locDraws N
  { frac_legit_imported := (imported_res.final_legit_total : ℚ) / N
    frac_counterfeit_imported := (imported_res.final_counterfeit_total : ℚ) / N
    frac_legit_arrived :=
      fracOrZero imported_res.final_legit_on_time imported_res.final_legit_total
    frac_counterfeit_arrived :=
      fracOrZero imported_res.final_counterfeit_on_time
        imported_res.final_counterfeit_total
    frac_legit_local := (local_res.final_legit_total : ℚ) / N
    frac_counterfeit_local := (local_res.final_counterfeit_total : ℚ) / N
    frac_legit_local_arrived :=
      fracOrZero local_res.final_legit_on_time local_res.final_legit_total
    frac_counterfeit_local_arrived :=
      fracOrZero local_res.final_counterfeit_on_time
        local_res.final_counterfeit_total }

/-- The `results_summary` dict of distribution_mc.py `main_simulation`
(lines 266-278): cross-run means of the accumulated fraction lists. -/
structure SimulationSummary where
  imported_mean_legit_fraction : ℚ
  imported_mean_counterfeit_fraction : ℚ
  local_mean_legit_fraction : ℚ
  local_mean_counterfeit_fraction : ℚ
  imported_legit_on_time : ℚ
  imported_counterfeit_on_time : ℚ
  local_legit_on_time : ℚ
  local_counterfeit_on_time : ℚ
  deriving DecidableEq

/-- distribution_mc.py `main_simulation` (lines 193-280): `num_sims`
iterations, each appending one `RunRow`; the appended lists are the
column-wise views of `rows`, and the summary takes `np.mean` of each. -/
def main_simulation (num_sims N : ℕ) (rd : ℕ → RunDraws) : SimulationSummary :=
  let rows := (List.range num_sims).map (fun i => runRow N (rd i))
  { imported_mean_legit_fraction := listMean (rows.map RunRow.frac_legit_imported)
    imported_mean_counterfeit_fraction :=
      listMean (rows.map RunRow.frac_counterfeit_imported)
    local_mean_legit_fraction := listMean (rows.map RunRow.frac_legit_local)
    local_mean_counterfeit_fraction :=
      listMean (rows.map RunRow.frac_counterfeit_local)
    imported_legit_on_time := listMean (rows.map RunRow.frac_legit_arrived)
    imported_counterfeit_on_time :=
      listMean (rows.map RunRow.frac_counterfeit_arrived)
    local_legit_on_time := listMean (rows.map RunRow.frac_legit_local_arrived)
    local_counterfeit_on_time :=
      listMean (rows.map RunRow.frac_counterfeit_local_arrived) }

/-- Replace the warehouse-theft probability of a run's imported
`StageProbs`, keeping every other probability and draw fixed. -/
def raiseWarehouseTheft (rd : RunDraws) (q : ℚ) : RunDraws :=
  { rd with impProbs := { rd.impProbs with p_warehouse_theft := q } }

end MC

namespace Regression

open Journey

/-- Run-level counters of distribution_regression.py
`simulate_imported_drugs` / `simulate_local_drugs` (lines 28-39, 143-152):
the MC counters plus the unified `final_missing` counter and the
arrived-shipment transit-time statistics. -/
structure RegResult where
  final_legit_on_time : ℕ
  final_counterfeit_on_time : ℕ
  final_missing : ℕ
  final_legit_total : ℕ
  final_counterfeit_total : ℕ
  total_transit_time : ℚ
  arrived_shipments : ℕ
  deriving DecidableEq

/-- Fold one shipment into the regression counters, mirroring
distribution_regression.py lines 42-108: class totals at lines 44-48;
each seizure/theft branch increments `final_missing` and skips the rest;
an arriving shipment (on time or late) increments `arrived_shipments` and
adds its transit time (lines 97-99); on-time increments the class on-time
counter, late increments `final_missing` (lines 101-108). -/
def regUpdate (r : RegResult) (s : ShipResult) : RegResult :=
  let r1 : RegResult :=
    if s.is_counterfeit then
      { r with final_counterfeit_total := r.final_counterfeit_total + 1 }
    else
      { r with final_legit_total := r.final_legit_total + 1 }
  match s.outcome with
  | .seizedExport => { r1 with final_missing := r1.final_missing + 1 }
  | .seizedImport => { r1 with final_missing := r1.final_missing + 1 }
  | .stolenWarehouse => { r1 with final_missing := r1.final_missing + 1 }
  | .stolenLastMile => { r1 with final_missing := r1.final_missing + 1 }
  | .onTime =>
    let r2 : RegResult :=
      { r1 with arrived_shipments := r1.arrived_shipments + 1
                total_transit_time := r1.total_transit_time + s.transit_time }
    if s.is_counterfeit then
      { r2 with final_counterfeit_on_time := r2.final_counterfeit_on_time + 1 }
    else
      { r2 with final_legit_on_time := r2.final_legit_on_time + 1 }
  | .lateArrival =>
    let r2 : RegResult :=
      { r1 with arrived_shipments := r1.arrived_shipments + 1
                total_transit_time := r1.total_transit_time + s.transit_time }
    { r2 with final_missing := r2.final_missing + 1 }

/-- distribution_regression.py `simulate_imported_drugs` (lines 6-131);
the per-shipment pipeline is `Journey.simulateShipmentImported`, identical
to the one in distribution_mc.py. -/
def simulate_imported_drugs (pr : StageProbs) (draws : ℕ → ShipDraws) (N : ℕ) :
    RegResult :=
  (List.range N).foldl
    (fun r i => regUpdate r (simulateShipmentImported pr (draws i)))
    ⟨0, 0, 0, 0, 0, 0, 0⟩

/-- distribution_regression.py `simulate_local_drugs` (lines 134-215). -/
def simulate_local_drugs (pr : LocalProbs) (draws : ℕ → ShipDraws) (N : ℕ) :
    RegResult :=
  (List.range N).foldl
    (fun r i => regUpdate r (simulateShipmentLocal pr (draws i)))
    ⟨0, 0, 0, 0, 0, 0, 0⟩

/-- `missing_fraction = final_missing / N`, the `missing_frac` column value
one run contributes to the regression table (distribution_regression.py
lines 231-232, 247, 257). -/
def missing_frac (N : ℕ) (r : RegResult) : ℚ := (r.final_missing : ℚ) / N

end Regression

namespace Batch

open Journey

/-- The random draws one call of distribution_batch.py
`simulate_imported_batch` consumes, in source order: the binomial
classification draw, four Poisson seizure draws, the count of the N
transit-time samples below 7 (`np.sum(on_time_mask)`, lines 47-49), and four
Poisson theft draws. -/
structure BatchDraws where
  counterfeit_import : ℕ
  seized_export_counterfeit : ℕ
  seized_export_legit : ℕ
  seized_import_counterfeit : ℕ
  seized_import_legit : ℕ
  on_time_count : ℕ
  theft_legit_warehouse : ℕ
  theft_counterfeit_warehouse : ℕ
  theft_legit_last_mile : ℕ
  theft_counterfeit_last_mile : ℕ
  deriving DecidableEq

/-- The tuple distribution_batch.py `simulate_imported_batch` returns
(line 76). -/
structure BatchResult where
  final_legit : ℕ
  final_counterfeit : ℕ
  legit_import : ℕ
  counterfeit_import : ℕ
  deriving DecidableEq

/-- distribution_batch.py `simulate_imported_batch` (lines 3-76).  All
quantities are non-negative integers, so Python's `max(0, a - b)` is exactly
truncated `ℕ` subtraction; `int(x * frac_on_time)` truncates a non-negative
float toward zero, i.e. takes the floor. -/
def simulate_imported_batch (N : ℕ) (d : BatchDraws) : BatchResult :=
  let counterfeit_import := d.counterfeit_import
  let legit_import := N - counterfeit_import
  let remaining_counterfeit_export := counterfeit_import - d.seized_export_counterfeit
  let remaining_legit_export := legit_import - d.seized_export_legit
  let remaining_counterfeit_import :=
    remaining_counterfeit_export - d.seized_import_counterfeit
  let remaining_legit_import := remaining_legit_export - d.seized_import_legit
  let frac_on_time : ℚ := (d.on_time_count : ℚ) / N
  let legit_on_time_import :=
    (Int.floor ((remaining_legit_import : ℚ) * frac_on_time)).toNat
  let counterf_on_time_import :=
    (Int.floor ((remaining_counterfeit_import : ℚ) * frac_on_time)).toNat
  let remaining_legit_warehouse := legit_on_time_import - d.theft_legit_warehouse
  let remaining_counterfeit_warehouse :=
    counterf_on_time_import - d.theft_counterfeit_warehouse
  let final_legit := remaining_legit_warehouse - d.theft_legit_last_mile
  let final_counterfeit :=
    remaining_counterfeit_warehouse - d.theft_counterfeit_last_mile
  ⟨final_legit, final_counterfeit, legit_import, counterfeit_import⟩

/-- `imp_legit / imp_legit_tot if imp_legit_tot > 0 else 0`, the per-run
legit on-time fraction appended by `batch_simulation`
(distribution_batch.py line 94). -/
def imported_legit_arrival_frac (N : ℕ) (d : BatchDraws) : ℚ :=
  let r := simulate_imported_batch N d
  fracOrZero r.final_legit r.legit_import

/-- Per-run counterfeit on-time fraction appended by `batch_simulation`
(distribution_batch.py line 95). -/
def imported_counterfeit_arrival_frac (N : ℕ) (d : BatchDraws) : ℚ :=
  let r := simulate_imported_batch N d
  fracOrZero r.final_counterfeit r.counterfeit_import

end Batch

namespace W

open Journey

/-- Concrete stage probabilities used by witnesses: every shipment is
classified counterfeit, no seizure or theft ever fires. -/
def pr : StageProbs := ⟨1/2, 0, 0, 0, 0, 0, 0⟩

/-- Concrete local probabilities for witnesses. -/
def lpr : LocalProbs := ⟨1/2, 0, 0⟩

/-- Concrete shipment draws: classified counterfeit (0 < 1/2), base leg 5
days, 2 stops of 1/2 day each, no seizure/theft draw below its threshold;
arrives at 6 days, on time. -/
def d : ShipDraws := ⟨0, 1, 5, 1, 2, fun _ => 1/2, fun _ => 1, 1⟩

/-- Constant draw stream for witnesses. -/
def draws : ℕ → ShipDraws := fun _ => d

/-- Concrete batch draws: 1 counterfeit of N=2, no seizures or thefts,
1 of the 2 transit samples on time. -/
def bd : Batch.BatchDraws := ⟨1, 0, 0, 0, 0, 1, 0, 0, 0, 0⟩

/-- Concrete batch draws with zero counterfeit shipments. -/
def bd0 : Batch.BatchDraws := ⟨0, 0, 0, 0, 0, 1, 0, 0, 0, 0⟩

/-- Concrete per-iteration draw bundle for the aggregator. -/
def rd : MC.RunDraws := ⟨pr, lpr, draws, draws⟩

/-- Constant run-draw stream for the aggregator witnesses. -/
def rdStream : ℕ → MC.RunDraws := fun _ => rd

/-- Concrete shipment draws classified legit (1 < 1/2 is false),
otherwise identical to `d`. -/
def dL : ShipDraws := ⟨1, 1, 5, 1, 2, fun _ => 1/2, fun _ => 1, 1⟩

/-- Constant all-legit draw stream. -/
def drawsL : ℕ → ShipDraws := fun _ => dL

/-- Run-draw bundle whose shipments are all legit. -/
def rdL : MC.RunDraws := ⟨pr, lpr, drawsL, drawsL⟩

/-- Concrete batch draws in which every one of the N = 2 shipments is
counterfeit, so `legit_import = 0`. -/
def bdAll : Batch.BatchDraws := ⟨2, 0, 0, 0, 0, 1, 0, 0, 0, 0⟩

end W

section UpdateLemmas

open Journey MC Regression

lemma mcUpdate_flt (r : McResult) (s : ShipResult) :
    (mcUpdate r s).final_legit_total =
      r.final_legit_total + if s.is_counterfeit then 0 else 1 := by
  rcases s with ⟨cf, o, t⟩
  cases cf <;> cases o <;> simp [mcUpdate]

lemma mcUpdate_fct (r : McResult) (s : ShipResult) :
    (mcUpdate r s).final_counterfeit_total =
      r.final_counterfeit_total + if s.is_counterfeit then 1 else 0 := by
  rcases s with ⟨cf, o, t⟩
  cases cf <;> cases o <;> simp [mcUpdate]

lemma mcUpdate_flo (r : McResult) (s : ShipResult) :
    (mcUpdate r s).final_legit_on_time =
      r.final_legit_on_time +
        if s.outcome = .onTime ∧ s.is_counterfeit = false then 1 else 0 := by
  rcases s with ⟨cf, o, t⟩
  cases cf <;> cases o <;> simp [mcUpdate]

lemma mcUpdate_fco (r : McResult) (s : ShipResult) :
    (mcUpdate r s).final_counterfeit_on_time =
      r.final_counterfeit_on_time +
        if s.outcome = .onTime ∧ s.is_counterfeit = true then 1 else 0 := by
  rcases s with ⟨cf, o, t⟩
  cases cf <;> cases o <;> simp [mcUpdate]

lemma mc_fold_totals (f : ℕ → Journey.ShipResult) (l : List ℕ) :
    ∀ r : McResult,
      (l.foldl (fun a i => mcUpdate a (f i)) r).final_legit_total +
        (l.foldl (fun a i => mcUpdate a (f i)) r).final_counterfeit_total =
        r.final_legit_total + r.final_counterfeit_total + l.length := by
  induction l with
  | nil => intro r; simp
  | cons x xs ih =>
    intro r
    simp only [List.foldl_cons, List.length_cons]
    rw [ih]
    rw [mcUpdate_flt, mcUpdate_fct]
    split_ifs <;> omega

lemma regUpdate_flt (r : RegResult) (s : ShipResult) :
    (regUpdate r s).final_legit_total =
      r.final_legit_total + if s.is_counterfeit then 0 else 1 := by
  rcases s with ⟨cf, o, t⟩
  cases cf <;> cases o <;> simp [regUpdate]

lemma regUpdate_fct (r : RegResult) (s : ShipResult) :
    (regUpdate r s).final_counterfeit_total =
      r.final_counterfeit_total + if s.is_counterfeit then 1 else 0 := by
  rcases s with ⟨cf, o, t⟩
  cases cf <;> cases o <;> simp [regUpdate]

lemma regUpdate_tri (r : RegResult) (s : ShipResult) :
    (regUpdate r s).final_legit_on_time +
      (regUpdate r s).final_counterfeit_on_time +
      (regUpdate r s).final_missing =
      r.final_legit_on_time + r.final_counterfeit_on_time +
        r.final_missing + 1 := by
  rcases s with ⟨cf, o, t⟩
  cases cf <;> cases o <;> simp [regUpdate] <;> omega

lemma reg_fold_totals (f : ℕ → Journey.ShipResult) (l : List ℕ) :
    ∀ r : RegResult,
      (l.foldl (fun a i => regUpdate a (f i)) r).final_legit_total +
        (l.foldl (fun a i => regUpdate a (f i)) r).final_counterfeit_total =
        r.final_legit_total + r.final_counterfeit_total + l.length := by
  induction l with
  | nil => intro r; simp
  | cons x xs ih =>
    intro r
    simp only [List.foldl_cons, List.length_cons]
    rw [ih]
    rw [regUpdate_flt, regUpdate_fct]
    split_ifs <;> omega

lemma reg_fold_tri (f : ℕ → Journey.ShipResult) (l : List ℕ) :
    ∀ r : RegResult,
      (l.foldl (fun a i => regUpdate a (f i)) r).final_legit_on_time +
        (l.foldl (fun a i => regUpdate a (f i)) r).final_counterfeit_on_time +
        (l.foldl (fun a i => regUpdate a (f i)) r).final_missing =
        r.final_legit_on_time + r.final_counterfeit_on_time +
          r.final_missing + l.length := by
  induction l with
  | nil => intro r; simp
  | cons x xs ih =>
    intro r
    simp only [List.foldl_cons, List.length_cons]
    rw [ih, regUpdate_tri]
    omega

end UpdateLemmas

section MonotonicityLemmas

open Journey MC

lemma stopLoop_eq_of_le (p q : ℚ) (hpq : p ≤ q) (time theft : ℕ → ℚ) :
    ∀ (k i : ℕ) (t : ℚ), (stopLoop q time theft i k t).2 = false →
      stopLoop p time theft i k t = stopLoop q time theft i k t := by
  intro k
  induction k with
  | zero => intro i t _; rfl
  | succ k ih =>
    intro i t hq
    simp only [stopLoop] at hq ⊢
    by_cases hth : theft i < q
    · simp [hth] at hq
    · have hp : ¬ theft i < p := fun hlt => hth (lt_of_lt_of_le hlt hpq)
      simp only [hth, hp, if_neg, ite_false] at hq ⊢
      exact ih _ _ hq

lemma isCf_set (pr : StageProbs) (q : ℚ) (d : ShipDraws) :
    isCfImported (setWarehouseTheft pr q) d = isCfImported pr d := rfl

lemma exportProb_set (pr : StageProbs) (q : ℚ) (cf : Bool) :
    exportProb (setWarehouseTheft pr q) cf = exportProb pr cf := rfl

lemma importProb_set (pr : StageProbs) (q : ℚ) (cf : Bool) :
    importProb (setWarehouseTheft pr q) cf = importProb pr cf := rfl

lemma lastMile_set (pr : StageProbs) (q : ℚ) :
    (setWarehouseTheft pr q).p_last_mile_theft = pr.p_last_mile_theft := rfl

lemma simulateShipmentImported_isCf (pr : StageProbs) (d : ShipDraws) :
    (simulateShipmentImported pr d).is_counterfeit = isCfImported pr d := by
  unfold simulateShipmentImported
  split_ifs <;> rfl

lemma sim_onTime_set (pr : StageProbs) (q : ℚ) (h : pr.p_warehouse_theft ≤ q)
    (d : ShipDraws)
    (hon : (simulateShipmentImported (setWarehouseTheft pr q) d).outcome =
      .onTime) :
    simulateShipmentImported pr d =
      simulateShipmentImported (setWarehouseTheft pr q) d := by
  unfold simulateShipmentImported at hon
  split_ifs at hon with h1 h2 h3 h4 h5
  have h3' : (stopResult (setWarehouseTheft pr q) d).2 = false :=
    Bool.not_eq_true _ |>.mp h3
  have hsr : stopResult pr d = stopResult (setWarehouseTheft pr q) d := by
    unfold stopResult
    exact stopLoop_eq_of_le pr.p_warehouse_theft q h d.stop_time d.stop_theft
      (num_stops d.poisson_stops) 0 d.base_time h3'
  unfold simulateShipmentImported
  simp only [exportProb_set, importProb_set, isCf_set, lastMile_set] at h1 h2 h4 ⊢
  rw [hsr]

end MonotonicityLemmas

section RelationLemmas

open Journey MC

lemma mcUpdate_flo_ge (r : McResult) (s : ShipResult) :
    r.final_legit_on_time ≤ (mcUpdate r s).final_legit_on_time := by
  rw [mcUpdate_flo]; split_ifs <;> omega

lemma mcUpdate_fco_ge (r : McResult) (s : ShipResult) :
    r.final_counterfeit_on_time ≤ (mcUpdate r s).final_counterfeit_on_time := by
  rw [mcUpdate_fco]; split_ifs <;> omega

lemma mcUpdate_flo_stable (r : McResult) (s : ShipResult)
    (h : ¬ s.outcome = .onTime) :
    (mcUpdate r s).final_legit_on_time = r.final_legit_on_time := by
  rw [mcUpdate_flo]; simp [h]

lemma mcUpdate_fco_stable (r : McResult) (s : ShipResult)
    (h : ¬ s.outcome = .onTime) :
    (mcUpdate r s).final_counterfeit_on_time = r.final_counterfeit_on_time := by
  rw [mcUpdate_fco]; simp [h]

lemma mc_step_rel (pr : StageProbs) (q : ℚ) (h : pr.p_warehouse_theft ≤ q)
    (d : ShipDraws) (r r' : McResult)
    (h1 : r'.final_legit_on_time ≤ r.final_legit_on_time)
    (h2 : r'.final_counterfeit_on_time ≤ r.final_counterfeit_on_time)
    (h3 : r'.final_legit_total = r.final_legit_total)
    (h4 : r'.final_counterfeit_total = r.final_counterfeit_total) :
    (mcUpdate r' (simulateShipmentImported (setWarehouseTheft pr q)
        d)).final_legit_on_time ≤
        (mcUpdate r (simulateShipmentImported pr d)).final_legit_on_time ∧
      (mcUpdate r' (simulateShipmentImported (setWarehouseTheft pr q)
        d)).final_counterfeit_on_time ≤
        (mcUpdate r (simulateShipmentImported pr d)).final_counterfeit_on_time ∧
      (mcUpdate r' (simulateShipmentImported (setWarehouseTheft pr q)
        d)).final_legit_total =
        (mcUpdate r (simulateShipmentImported pr d)).final_legit_total ∧
      (mcUpdate r' (simulateShipmentImported (setWarehouseTheft pr q)
        d)).final_counterfeit_total =
        (mcUpdate r (simulateShipmentImported pr d)).final_counterfeit_total := by
  have hcf : (simulateShipmentImported (setWarehouseTheft pr q)
      d).is_counterfeit = (simulateShipmentImported pr d).is_counterfeit := by
    rw [simulateShipmentImported_isCf, simulateShipmentImported_isCf, isCf_set]
  by_cases hon : (simulateShipmentImported (setWarehouseTheft pr q)
      d).outcome = .onTime
  · rw [sim_onTime_set pr q h d hon]
    refine ⟨?_, ?_, ?_, ?_⟩ <;>
      simp only [mcUpdate_flo, mcUpdate_fco, mcUpdate_flt, mcUpdate_fct] <;>
      split_ifs <;> omega
  · refine ⟨?_, ?_, ?_, ?_⟩
    · rw [mcUpdate_flo_stable _ _ hon]
      exact le_trans h1 (mcUpdate_flo_ge _ _)
    · rw [mcUpdate_fco_stable _ _ hon]
      exact le_trans h2 (mcUpdate_fco_ge _ _)
    · rw [mcUpdate_flt, mcUpdate_flt, hcf, h3]
    · rw [mcUpdate_fct, mcUpdate_fct, hcf, h4]

lemma mc_fold_rel (pr : StageProbs) (q : ℚ) (h : pr.p_warehouse_theft ≤ q)
    (draws : ℕ → ShipDraws) (l : List ℕ) :
    ∀ r r' : McResult,
      r'.final_legit_on_time ≤ r.final_legit_on_time →
      r'.final_counterfeit_on_time ≤ r.final_counterfeit_on_time →
      r'.final_legit_total = r.final_legit_total →
      r'.final_counterfeit_total = r.final_counterfeit_total →
      (l.foldl (fun a i => mcUpdate a (simulateShipmentImported
          (setWarehouseTheft pr q) (draws i))) r').final_legit_on_time ≤
          (l.foldl (fun a i => mcUpdate a (simulateShipmentImported pr
            (draws i))) r).final_legit_on_time ∧
        (l.foldl (fun a i => mcUpdate a (simulateShipmentImported
          (setWarehouseTheft pr q) (draws i))) r').final_counterfeit_on_time ≤
          (l.foldl (fun a i => mcUpdate a (simulateShipmentImported pr
            (draws i))) r).final_counterfeit_on_time ∧
        (l.foldl (fun a i => mcUpdate a (simulateShipmentImported
          (setWarehouseTheft pr q) (draws i))) r').final_legit_total =
          (l.foldl (fun a i => mcUpdate a (simulateShipmentImported pr
            (draws i))) r).final_legit_total ∧
        (l.foldl (fun a i => mcUpdate a (simulateShipmentImported
          (setWarehouseTheft pr q) (draws i))) r').final_counterfeit_total =
          (l.foldl (fun a i => mcUpdate a (simulateShipmentImported pr
            (draws i))) r).final_counterfeit_total := by
  induction l with
  | nil => intro r r' h1 h2 h3 h4; exact ⟨h1, h2, h3, h4⟩
  | cons x xs ih =>
    intro r r' h1 h2 h3 h4
    simp only [List.foldl_cons]
    obtain ⟨g1, g2, g3, g4⟩ := mc_step_rel pr q h (draws x) r r' h1 h2 h3 h4
    exact ih _ _ g1 g2 g3 g4

lemma simulate_imported_set_rel (pr : StageProbs) (q : ℚ)
    (h : pr.p_warehouse_theft ≤ q) (draws : ℕ → ShipDraws) (N : ℕ) :
    (MC.simulate_imported_drugs (setWarehouseTheft pr q) draws
        N).final_legit_on_time ≤
        (MC.simulate_imported_drugs pr draws N).final_legit_on_time ∧
      (MC.simulate_imported_drugs (setWarehouseTheft pr q) draws
        N).final_counterfeit_on_time ≤
        (MC.simulate_imported_drugs pr draws N).final_counterfeit_on_time ∧
      (MC.simulate_imported_drugs (setWarehouseTheft pr q) draws
        N).final_legit_total =
        (MC.simulate_imported_drugs pr draws N).final_legit_total ∧
      (MC.simulate_imported_drugs (setWarehouseTheft pr q) draws
        N).final_counterfeit_total =
        (MC.simulate_imported_drugs pr draws N).final_counterfeit_total := by
  unfold MC.simulate_imported_drugs
  exact mc_fold_rel pr q h draws (List.range N) ⟨0, 0, 0, 0⟩ ⟨0, 0, 0, 0⟩
    le_rfl le_rfl rfl rfl

end RelationLemmas

section FracLemmas

open Journey

lemma fracOrZero_mono (n' n den : ℕ) (h : n' ≤ n) :
    fracOrZero n' den ≤ fracOrZero n den := by
  unfold fracOrZero
  split_ifs with hd
  · have hn : (n' : ℚ) ≤ n := by exact_mod_cast h
    gcongr
  · exact le_rfl

lemma fracOrZero_nonneg (n den : ℕ) : 0 ≤ fracOrZero n den := by
  unfold fracOrZero
  split_ifs with hd
  · positivity
  · exact le_rfl

lemma fracOrZero_le_one (n den : ℕ) (h : n ≤ den) : fracOrZero n den ≤ 1 := by
  unfold fracOrZero
  split_ifs with hd
  · rw [div_le_one (by exact_mod_cast hd)]
    exact_mod_cast h
  · norm_num

lemma listMean_map_le {α : Type} (l : List α) (f g : α → ℚ)
    (h : ∀ a ∈ l, f a ≤ g a) : listMean (l.map f) ≤ listMean (l.map g) := by
  unfold listMean
  simp only [List.length_map]
  rcases Nat.eq_zero_or_pos l.length with h0 | hpos
  · rw [List.length_eq_zero.mp h0]
    simp
  · have hs : (l.map f).sum ≤ (l.map g).sum := List.sum_le_sum h
    have hl : (0 : ℚ) < l.length := by exact_mod_cast hpos
    exact (div_le_div_iff_of_pos_right hl).mpr hs

lemma floor_mul_frac_le (x s N : ℕ) (hs : s ≤ N) :
    (Int.floor ((x : ℚ) * ((s : ℚ) / (N : ℚ)))).toNat ≤ x := by
  rcases Nat.eq_zero_or_pos N with h0 | hN
  · subst h0
    simp
  · have hfrac : (s : ℚ) / (N : ℚ) ≤ 1 := by
      rw [div_le_one (by exact_mod_cast hN)]
      exact_mod_cast hs
    have hx : (x : ℚ) * ((s : ℚ) / (N : ℚ)) ≤ (x : ℚ) := by
      calc (x : ℚ) * ((s : ℚ) / (N : ℚ)) ≤ (x : ℚ) * 1 := by gcongr
        _ = (x : ℚ) := mul_one _
    have hfl : Int.floor ((x : ℚ) * ((s : ℚ) / (N : ℚ))) ≤ (x : ℤ) := by
      have hmono := Int.floor_le_floor hx
      simpa using hmono
    exact Int.toNat_le.mpr hfl

end FracLemmas

section BatchLemmas

open Journey Batch

lemma batch_counts_le (N : ℕ) (d : BatchDraws) (hon : d.on_time_count ≤ N) :
    (simulate_imported_batch N d).final_legit ≤
        (simulate_imported_batch N d).legit_import ∧
      (simulate_imported_batch N d).final_counterfeit ≤
        (simulate_imported_batch N d).counterfeit_import := by
  simp only [simulate_imported_batch]
  constructor
  · exact le_trans (Nat.sub_le _ _) (le_trans (Nat.sub_le _ _)
      (le_trans (floor_mul_frac_le _ _ _ hon)
        (le_trans (Nat.sub_le _ _) (Nat.sub_le _ _))))
  · exact le_trans (Nat.sub_le _ _) (le_trans (Nat.sub_le _ _)
      (le_trans (floor_mul_frac_le _ _ _ hon)
        (le_trans (Nat.sub_le _ _) (Nat.sub_le _ _))))

end BatchLemmas

section ProjLemmas

open Journey MC

lemma runRow_frac_legit_arrived (N : ℕ) (rd : RunDraws) :
    (runRow N rd).frac_legit_arrived =
      fracOrZero
        (simulate_imported_drugs rd.impProbs rd.impDraws N).final_legit_on_time
        (simulate_imported_drugs rd.impProbs rd.impDraws N).final_legit_total :=
  rfl

lemma runRow_frac_counterfeit_arrived (N : ℕ) (rd : RunDraws) :
    (runRow N rd).frac_counterfeit_arrived =
      fracOrZero
        (simulate_imported_drugs rd.impProbs rd.impDraws
          N).final_counterfeit_on_time
        (simulate_imported_drugs rd.impProbs rd.impDraws
          N).final_counterfeit_total :=
  rfl

lemma runRow_frac_legit_local_arrived (N : ℕ) (rd : RunDraws) :
    (runRow N rd).frac_legit_local_arrived =
      fracOrZero
        (simulate_local_drugs rd.locProbs rd.locDraws N).final_legit_on_time
        (simulate_local_drugs rd.locProbs rd.locDraws N).final_legit_total :=
  rfl

lemma runRow_frac_counterfeit_local_arrived (N : ℕ) (rd : RunDraws) :
    (runRow N rd).frac_counterfeit_local_arrived =
      fracOrZero
        (simulate_local_drugs rd.locProbs rd.locDraws
          N).final_counterfeit_on_time
        (simulate_local_drugs rd.locProbs rd.locDraws
          N).final_counterfeit_total :=
  rfl

lemma raise_impProbs (rd : RunDraws) (q : ℚ) :
    (raiseWarehouseTheft rd q).impProbs = setWarehouseTheft rd.impProbs q := rfl

lemma raise_impDraws (rd : RunDraws) (q : ℚ) :
    (raiseWarehouseTheft rd q).impDraws = rd.impDraws := rfl

lemma main_simulation_ilo (num_sims N : ℕ) (rd : ℕ → RunDraws) :
    (main_simulation num_sims N rd).imported_legit_on_time =
      listMean (((List.range num_sims).map fun i => runRow N (rd i)).map
        RunRow.frac_legit_arrived) := rfl

lemma main_simulation_ico (num_sims N : ℕ) (rd : ℕ → RunDraws) :
    (main_simulation num_sims N rd).imported_counterfeit_on_time =
      listMean (((List.range num_sims).map fun i => runRow N (rd i)).map
        RunRow.frac_counterfeit_arrived) := rfl

lemma runRow_arrived_le (N : ℕ) (rd : RunDraws) (q : ℚ)
    (h : rd.impProbs.p_warehouse_theft ≤ q) :
    (runRow N (raiseWarehouseTheft rd q)).frac_legit_arrived ≤
        (runRow N rd).frac_legit_arrived ∧
      (runRow N (raiseWarehouseTheft rd q)).frac_counterfeit_arrived ≤
        (runRow N rd).frac_counterfeit_arrived := by
  obtain ⟨hL, hC, htL, htC⟩ := simulate_imported_set_rel rd.impProbs q h
    rd.impDraws N
  constructor
  · rw [runRow_frac_legit_arrived, runRow_frac_legit_arrived,
      raise_impProbs, raise_impDraws, htL]
    exact fracOrZero_mono _ _ _ hL
  · rw [runRow_frac_counterfeit_arrived, runRow_frac_counterfeit_arrived,
      raise_impProbs, raise_impDraws, htC]
    exact fracOrZero_mono _ _ _ hC

end ProjLemmas

/-- C1: in every variant of the Journey Model (per-shipment Monte Carlo,
regression, and batch), the two class totals returned by one run over N
shipments partition N exactly: legit_total + counterfeit_total = N.  For the
batch variant the binomial classification draw lies in the support of
`np.random.binomial(N, p)`, i.e. `counterfeit_import ≤ N`. -/
theorem c1_class_totals_partition (pr : Journey.StageProbs)
    (lpr : Journey.LocalProbs) (draws : ℕ → Journey.ShipDraws) (N : ℕ)
    (bd : Batch.BatchDraws) (hb : bd.counterfeit_import ≤ N) :
    (MC.simulate_imported_drugs pr draws N).final_legit_total +
        (MC.simulate_imported_drugs pr draws N).final_counterfeit_total = N ∧
      (MC.simulate_local_drugs lpr draws N).final_legit_total +
        (MC.simulate_local_drugs lpr draws N).final_counterfeit_total = N ∧
      (Regression.simulate_imported_drugs pr draws N).final_legit_total +
        (Regression.simulate_imported_drugs pr draws
          N).final_counterfeit_total = N ∧
      (Regression.simulate_local_drugs lpr draws N).final_legit_total +
        (Regression.simulate_local_drugs lpr draws
          N).final_counterfeit_total = N ∧
      (Batch.simulate_imported_batch N bd).legit_import +
        (Batch.simulate_imported_batch N bd).counterfeit_import = N := by
  refine ⟨?_, ?_, ?_, ?_, ?_⟩
  · unfold MC.simulate_imported_drugs
    have := mc_fold_totals
      (fun i => Journey.simulateShipmentImported pr (draws i))
      (List.range N) ⟨0, 0, 0, 0⟩
    simpa using this
  · unfold MC.simulate_local_drugs
    have := mc_fold_totals
      (fun i => Journey.simulateShipmentLocal lpr (draws i))
      (List.range N) ⟨0, 0, 0, 0⟩
    simpa using this
  · unfold Regression.simulate_imported_drugs
    have := reg_fold_totals
      (fun i => Journey.simulateShipmentImported pr (draws i))
      (List.range N) ⟨0, 0, 0, 0, 0, 0, 0⟩
    simpa using this
  · unfold Regression.simulate_local_drugs
    have := reg_fold_totals
      (fun i => Journey.simulateShipmentLocal lpr (draws i))
      (List.range N) ⟨0, 0, 0, 0, 0, 0, 0⟩
    simpa using this
  · simp only [Batch.simulate_imported_batch]
    omega

/-- Witness for C1 at concrete inputs (N = 2, all-counterfeit draws,
batch draw with 1 counterfeit of 2). -/
theorem c1_class_totals_partition_witness :
    W.bd.counterfeit_import ≤ 2 ∧
      (MC.simulate_imported_drugs W.pr W.draws 2).final_legit_total +
        (MC.simulate_imported_drugs W.pr W.draws 2).final_counterfeit_total
          = 2 ∧
      (Batch.simulate_imported_batch 2 W.bd).legit_import +
        (Batch.simulate_imported_batch 2 W.bd).counterfeit_import = 2 :=
  ⟨by decide,
    (c1_class_totals_partition W.pr W.lpr W.draws 2 W.bd (by decide)).1,
    (c1_class_totals_partition W.pr W.lpr W.draws 2 W.bd
      (by decide)).2.2.2.2⟩

/-- C2: in the unified-missing (regression) variant, for both the imported
and local paths, each of the N shipments reaches exactly one terminal
status, so final_legit_on_time + final_counterfeit_on_time + final_missing
= N. -/
theorem c2_unified_missing_partition (pr : Journey.StageProbs)
    (lpr : Journey.LocalProbs) (draws : ℕ → Journey.ShipDraws) (N : ℕ) :
    (Regression.simulate_imported_drugs pr draws N).final_legit_on_time +
        (Regression.simulate_imported_drugs pr draws
          N).final_counterfeit_on_time +
        (Regression.simulate_imported_drugs pr draws N).final_missing = N ∧
      (Regression.simulate_local_drugs lpr draws N).final_legit_on_time +
        (Regression.simulate_local_drugs lpr draws
          N).final_counterfeit_on_time +
        (Regression.simulate_local_drugs lpr draws N).final_missing = N := by
  constructor
  · unfold Regression.simulate_imported_drugs
    have := reg_fold_tri
      (fun i => Journey.simulateShipmentImported pr (draws i))
      (List.range N) ⟨0, 0, 0, 0, 0, 0, 0⟩
    simpa using this
  · unfold Regression.simulate_local_drugs
    have := reg_fold_tri
      (fun i => Journey.simulateShipmentLocal lpr (draws i))
      (List.range N) ⟨0, 0, 0, 0, 0, 0, 0⟩
    simpa using this

/-- C3: a shipment is counted on-time exactly when it was not terminated by
a seizure or theft stage before the arrival check and its cumulative transit
time is strictly less than 7.0 days (imported and local per-shipment
pipelines; the same pipeline is shared by the mc and regression variants). -/
theorem c3_on_time_iff_arrival_under_seven (pr : Journey.StageProbs)
    (lpr : Journey.LocalProbs) (d : Journey.ShipDraws) :
    ((Journey.simulateShipmentImported pr d).outcome =
        Journey.Outcome.onTime ↔
      Journey.terminatedBeforeArrival
          (Journey.simulateShipmentImported pr d).outcome = false ∧
        (Journey.simulateShipmentImported pr d).transit_time < 7) ∧
    ((Journey.simulateShipmentLocal lpr d).outcome =
        Journey.Outcome.onTime ↔
      Journey.terminatedBeforeArrival
          (Journey.simulateShipmentLocal lpr d).outcome = false ∧
        (Journey.simulateShipmentLocal lpr d).transit_time < 7) := by
  constructor
  · unfold Journey.simulateShipmentImported
    split_ifs <;> simp_all [Journey.terminatedBeforeArrival]
  · unfold Journey.simulateShipmentLocal
    split_ifs <;> simp_all [Journey.terminatedBeforeArrival]

/-- C4 (refuted on the code): the entry points perform no configuration
validation at all.  With `num_sims = 0` the Monte Carlo aggregator silently
completes and returns a summary of empty-list means, and with `N = 0` a run
silently returns all-zero counters — no descriptive configuration error is
raised before (or instead of) simulation work. -/
theorem c4_no_configuration_validation (rd : ℕ → MC.RunDraws)
    (pr : Journey.StageProbs) (draws : ℕ → Journey.ShipDraws) :
    MC.main_simulation 0 10000 rd = ⟨0, 0, 0, 0, 0, 0, 0, 0⟩ ∧
      MC.simulate_imported_drugs pr draws 0 = ⟨0, 0, 0, 0⟩ := by
  constructor
  · norm_num [MC.main_simulation, Journey.listMean]
  · rfl

/-- C5: whenever a class total (legit or counterfeit) is zero in a run, the
corresponding per-class on-time fraction computed by the aggregators is 0
(not NaN or an exception), via the explicit divide-by-zero guard
(`... if total > 0 else 0`) — at all six guard sites: imported legit and
counterfeit and local legit and counterfeit in `main_simulation`, and legit
and counterfeit in `batch_simulation`. -/
theorem c5_zero_class_guard (N : ℕ) (rd : MC.RunDraws)
    (bd : Batch.BatchDraws) :
    ((MC.simulate_imported_drugs rd.impProbs rd.impDraws
        N).final_legit_total = 0 →
      (MC.runRow N rd).frac_legit_arrived = 0) ∧
    ((MC.simulate_imported_drugs rd.impProbs rd.impDraws
        N).final_counterfeit_total = 0 →
      (MC.runRow N rd).frac_counterfeit_arrived = 0) ∧
    ((MC.simulate_local_drugs rd.locProbs rd.locDraws
        N).final_legit_total = 0 →
      (MC.runRow N rd).frac_legit_local_arrived = 0) ∧
    ((MC.simulate_local_drugs rd.locProbs rd.locDraws
        N).final_counterfeit_total = 0 →
      (MC.runRow N rd).frac_counterfeit_local_arrived = 0) ∧
    ((Batch.simulate_imported_batch N bd).legit_import = 0 →
      Batch.imported_legit_arrival_frac N bd = 0) ∧
    ((Batch.simulate_imported_batch N bd).counterfeit_import = 0 →
      Batch.imported_counterfeit_arrival_frac N bd = 0) := by
  refine ⟨?_, ?_, ?_, ?_, ?_, ?_⟩
  · intro h0
    rw [runRow_frac_legit_arrived, h0]
    simp [Journey.fracOrZero]
  · intro h0
    rw [runRow_frac_counterfeit_arrived, h0]
    simp [Journey.fracOrZero]
  · intro h0
    rw [runRow_frac_legit_local_arrived, h0]
    simp [Journey.fracOrZero]
  · intro h0
    rw [runRow_frac_counterfeit_local_arrived, h0]
    simp [Journey.fracOrZero]
  · intro h0
    simp only [Batch.imported_legit_arrival_frac]
    rw [h0]
    simp [Journey.fracOrZero]
  · intro h0
    simp only [Batch.imported_counterfeit_arrival_frac]
    rw [h0]
    simp [Journey.fracOrZero]

/-- Witness for C5 exercising all six guard sites: an all-counterfeit run
(imported and local legit totals 0), an all-legit run (imported and local
counterfeit totals 0), a batch draw with zero counterfeit and a batch draw
with zero legit shipments. -/
theorem c5_zero_class_guard_witness :
    (MC.simulate_imported_drugs W.rd.impProbs W.rd.impDraws
        1).final_legit_total = 0 ∧
      (MC.runRow 1 W.rd).frac_legit_arrived = 0 ∧
      (MC.runRow 1 W.rd).frac_legit_local_arrived = 0 ∧
      (MC.simulate_imported_drugs W.rdL.impProbs W.rdL.impDraws
        1).final_counterfeit_total = 0 ∧
      (MC.runRow 1 W.rdL).frac_counterfeit_arrived = 0 ∧
      (MC.runRow 1 W.rdL).frac_counterfeit_local_arrived = 0 ∧
      Batch.imported_legit_arrival_frac 2 W.bdAll = 0 ∧
      Batch.imported_counterfeit_arrival_frac 2 W.bd0 = 0 :=
  ⟨by norm_num [MC.simulate_imported_drugs, MC.mcUpdate,
      Journey.simulateShipmentImported, Journey.exportProb, Journey.importProb,
      Journey.isCfImported, Journey.stopResult, Journey.stopLoop,
      Journey.num_stops, W.pr, W.draws, W.d, W.rd, W.lpr, List.range_succ],
    (c5_zero_class_guard 1 W.rd W.bd0).1 (by norm_num [MC.simulate_imported_drugs,
      MC.mcUpdate, Journey.simulateShipmentImported, Journey.exportProb,
      Journey.importProb, Journey.isCfImported, Journey.stopResult,
      Journey.stopLoop, Journey.num_stops, W.pr, W.draws, W.d, W.rd, W.lpr,
      List.range_succ]),
    (c5_zero_class_guard 1 W.rd W.bd0).2.2.1 (by norm_num [MC.simulate_local_drugs,
      MC.mcUpdate, Journey.simulateShipmentLocal, Journey.isCfLocal,
      Journey.stopResultLocal, Journey.stopLoop, Journey.num_stops, W.pr,
      W.draws, W.d, W.rd, W.lpr, List.range_succ]),
    by norm_num [MC.simulate_imported_drugs, MC.mcUpdate,
      Journey.simulateShipmentImported, Journey.exportProb, Journey.importProb,
      Journey.isCfImported, Journey.stopResult, Journey.stopLoop,
      Journey.num_stops, W.pr, W.drawsL, W.dL, W.rdL, W.lpr, List.range_succ],
    (c5_zero_class_guard 1 W.rdL W.bd0).2.1 (by norm_num [MC.simulate_imported_drugs,
      MC.mcUpdate, Journey.simulateShipmentImported, Journey.exportProb,
      Journey.importProb, Journey.isCfImported, Journey.stopResult,
      Journey.stopLoop, Journey.num_stops, W.pr, W.drawsL, W.dL, W.rdL, W.lpr,
      List.range_succ]),
    (c5_zero_class_guard 1 W.rdL W.bd0).2.2.2.1 (by norm_num [MC.simulate_local_drugs,
      MC.mcUpdate, Journey.simulateShipmentLocal, Journey.isCfLocal,
      Journey.stopResultLocal, Journey.stopLoop, Journey.num_stops, W.pr,
      W.drawsL, W.dL, W.rdL, W.lpr, List.range_succ]),
    (c5_zero_class_guard 2 W.rd W.bdAll).2.2.2.2.1 (by decide),
    (c5_zero_class_guard 2 W.rd W.bd0).2.2.2.2.2 (by decide)⟩

lemma reg_imported_tri_sum (pr : Journey.StageProbs)
    (draws : ℕ → Journey.ShipDraws) (N : ℕ) :
    (Regression.simulate_imported_drugs pr draws N).final_legit_on_time +
      (Regression.simulate_imported_drugs pr draws
        N).final_counterfeit_on_time +
      (Regression.simulate_imported_drugs pr draws N).final_missing = N := by
  unfold Regression.simulate_imported_drugs
  have := reg_fold_tri (fun i => Journey.simulateShipmentImported pr (draws i))
    (List.range N) ⟨0, 0, 0, 0, 0, 0, 0⟩
  simpa using this

lemma reg_local_tri_sum (lpr : Journey.LocalProbs)
    (draws : ℕ → Journey.ShipDraws) (N : ℕ) :
    (Regression.simulate_local_drugs lpr draws N).final_legit_on_time +
      (Regression.simulate_local_drugs lpr draws
        N).final_counterfeit_on_time +
      (Regression.simulate_local_drugs lpr draws N).final_missing = N := by
  unfold Regression.simulate_local_drugs
  have := reg_fold_tri (fun i => Journey.simulateShipmentLocal lpr (draws i))
    (List.range N) ⟨0, 0, 0, 0, 0, 0, 0⟩
  simpa using this

/-- C6: in the regression variant with N ≥ 1 shipments, `final_missing`
never exceeds N (each shipment increments the missing counter at most once),
so the `missing_frac` value placed in the output table lies in [0, 1] —
for both the imported and local paths. -/
theorem c6_missing_frac_in_unit_interval (pr : Journey.StageProbs)
    (lpr : Journey.LocalProbs) (draws : ℕ → Journey.ShipDraws) (N : ℕ)
    (h : 1 ≤ N) :
    (Regression.simulate_imported_drugs pr draws N).final_missing ≤ N ∧
      0 ≤ Regression.missing_frac N
        (Regression.simulate_imported_drugs pr draws N) ∧
      Regression.missing_frac N
        (Regression.simulate_imported_drugs pr draws N) ≤ 1 ∧
      (Regression.simulate_local_drugs lpr draws N).final_missing ≤ N ∧
      0 ≤ Regression.missing_frac N
        (Regression.simulate_local_drugs lpr draws N) ∧
      Regression.missing_frac N
        (Regression.simulate_local_drugs lpr draws N) ≤ 1 := by
  have hi := reg_imported_tri_sum pr draws N
  have hl := reg_local_tri_sum lpr draws N
  have hN : (0 : ℚ) < N := by exact_mod_cast h
  refine ⟨by omega, ?_, ?_, by omega, ?_, ?_⟩
  · unfold Regression.missing_frac
    positivity
  · unfold Regression.missing_frac
    rw [div_le_one hN]
    exact_mod_cast (by omega :
      (Regression.simulate_imported_drugs pr draws N).final_missing ≤ N)
  · unfold Regression.missing_frac
    positivity
  · unfold Regression.missing_frac
    rw [div_le_one hN]
    exact_mod_cast (by omega :
      (Regression.simulate_local_drugs lpr draws N).final_missing ≤ N)

/-- Witness for C6 at N = 1 with concrete draws. -/
theorem c6_missing_frac_in_unit_interval_witness :
    (1 : ℕ) ≤ 1 ∧
      (Regression.simulate_imported_drugs W.pr W.draws 1).final_missing ≤ 1 ∧
      Regression.missing_frac 1
        (Regression.simulate_imported_drugs W.pr W.draws 1) ≤ 1 :=
  ⟨le_rfl,
    (c6_missing_frac_in_unit_interval W.pr W.lpr W.draws 1 le_rfl).1,
    (c6_missing_frac_in_unit_interval W.pr W.lpr W.draws 1 le_rfl).2.2.1⟩

/-- C7: the stop count is `max(1, Poisson draw)`, with λ = 3 for the
imported path and λ = 1 for the local path; after the clamp `num_stops`
is always ≥ 1, never 0, whatever the Poisson draw was. -/
theorem c7_stop_count_floor :
    Journey.lambda_stops_imported = 3 ∧ Journey.lambda_stops_local = 1 ∧
      ∀ poisson_draw : ℕ, 1 ≤ Journey.num_stops poisson_draw :=
  ⟨rfl, rfl, fun k => le_max_left 1 k⟩

/-- C8: the Monte Carlo aggregator is a deterministic pure function of its
arguments and the random draw stream: two executions with the same
`num_sims`, the same `N` and pointwise-identical draw streams (as produced
by the same fixed seed) return identical `SimulationSummary` values. -/
theorem c8_determinism (num_sims N : ℕ) (rd1 rd2 : ℕ → MC.RunDraws)
    (h : ∀ i, rd1 i = rd2 i) :
    MC.main_simulation num_sims N rd1 = MC.main_simulation num_sims N rd2 := by
  have hs : rd1 = rd2 := funext h
  rw [hs]

/-- Witness for C8: rerunning the aggregator on the same concrete stream
yields the identical summary. -/
theorem c8_determinism_witness :
    MC.main_simulation 2 3 W.rdStream = MC.main_simulation 2 3 W.rdStream :=
  c8_determinism 2 3 W.rdStream W.rdStream (fun _ => rfl)

/-- C9: raising `p_warehouse_theft` in every run, with every other
probability and every random draw held fixed, cannot increase the mean
on-time fraction reported by the aggregator, for either class of imported
shipment. -/
theorem c9_warehouse_theft_monotone (num_sims N : ℕ) (rd : ℕ → MC.RunDraws)
    (q : ℕ → ℚ) (h : ∀ i, (rd i).impProbs.p_warehouse_theft ≤ q i) :
    (MC.main_simulation num_sims N
        (fun i => MC.raiseWarehouseTheft (rd i) (q i))).imported_legit_on_time
        ≤ (MC.main_simulation num_sims N rd).imported_legit_on_time ∧
      (MC.main_simulation num_sims N
        (fun i =>
          MC.raiseWarehouseTheft (rd i) (q i))).imported_counterfeit_on_time
        ≤ (MC.main_simulation num_sims N rd).imported_counterfeit_on_time := by
  constructor
  · rw [main_simulation_ilo, main_simulation_ilo, List.map_map, List.map_map]
    apply listMean_map_le
    intro i hi
    simp only [Function.comp_apply]
    exact (runRow_arrived_le N (rd i) (q i) (h i)).1
  · rw [main_simulation_ico, main_simulation_ico, List.map_map, List.map_map]
    apply listMean_map_le
    intro i hi
    simp only [Function.comp_apply]
    exact (runRow_arrived_le N (rd i) (q i) (h i)).2

/-- Witness for C9: raising the warehouse-theft probability from 0 to 1/2
on a concrete stream does not increase the mean legit on-time fraction. -/
theorem c9_warehouse_theft_monotone_witness :
    (∀ i : ℕ, (W.rdStream i).impProbs.p_warehouse_theft ≤ (1 : ℚ) / 2) ∧
      (MC.main_simulation 1 1
        (fun i => MC.raiseWarehouseTheft (W.rdStream i)
          ((1 : ℚ) / 2))).imported_legit_on_time ≤
        (MC.main_simulation 1 1 W.rdStream).imported_legit_on_time :=
  ⟨fun i => by norm_num [W.rdStream, W.rd, W.pr],
    (c9_warehouse_theft_monotone 1 1 W.rdStream (fun _ => (1 : ℚ) / 2)
      (fun i => by norm_num [W.rdStream, W.rd, W.pr])).1⟩

/-- C10: in the batch variant the `max(0, ...)` clamps (ℕ subtraction) and
the `int` truncation keep every returned count a non-negative integer with
`final_legit ≤ legit_import` and `final_counterfeit ≤ counterfeit_import`,
so both per-run on-time fractions computed by `batch_simulation` lie in
[0, 1].  The hypothesis `on_time_count ≤ N` holds by construction: it is
`np.sum` of a boolean mask over N samples. -/
theorem c10_batch_counts_and_fracs (N : ℕ) (bd : Batch.BatchDraws)
    (hon : bd.on_time_count ≤ N) :
    (Batch.simulate_imported_batch N bd).final_legit ≤
        (Batch.simulate_imported_batch N bd).legit_import ∧
      (Batch.simulate_imported_batch N bd).final_counterfeit ≤
        (Batch.simulate_imported_batch N bd).counterfeit_import ∧
      0 ≤ Batch.imported_legit_arrival_frac N bd ∧
      Batch.imported_legit_arrival_frac N bd ≤ 1 ∧
      0 ≤ Batch.imported_counterfeit_arrival_frac N bd ∧
      Batch.imported_counterfeit_arrival_frac N bd ≤ 1 := by
  obtain ⟨hL, hC⟩ := batch_counts_le N bd hon
  refine ⟨hL, hC, ?_, ?_, ?_, ?_⟩
  · exact fracOrZero_nonneg _ _
  · exact fracOrZero_le_one _ _ hL
  · exact fracOrZero_nonneg _ _
  · exact fracOrZero_le_one _ _ hC

/-- Witness for C10 at N = 2 with a concrete batch draw. -/
theorem c10_batch_counts_and_fracs_witness :
    W.bd.on_time_count ≤ 2 ∧
      (Batch.simulate_imported_batch 2 W.bd).final_legit ≤
        (Batch.simulate_imported_batch 2 W.bd).legit_import ∧
      Batch.imported_legit_arrival_frac 2 W.bd ≤ 1 :=
  ⟨by decide, (c10_batch_counts_and_fracs 2 W.bd (by decide)).1,
    (c10_batch_counts_and_fracs 2 W.bd (by decide)).2.2.2.1⟩
